import Mathlib

/-!
Verification of the Mini E-Commerce backend (`src/main.py`, `src/schemas.py`).

The development is a shallow embedding of the two source files:

* Pydantic models (`schemas.py`) become Lean structures; a `Field` constraint
  such as `ge=0` becomes a validating smart constructor returning `Option`.
* The Mongo document store becomes an explicit `DB` state (one list per
  collection) threaded through the handlers; `find_one` is `List.find?`,
  `update_one` / `delete_one` act on the first matching document, and
  `find(query).sort("created_at", -1)` filters then merge-sorts descending.
* `float` prices and totals are modelled as `Rat`; the claims at stake
  (server-side summation, sign checks) do not depend on rounding.
* BSON `ObjectId` values are modelled as `Nat`; `ObjectId(s)` parsing accepts
  exactly the 24-character hex strings.  Python externalizes ids with `str`,
  an injective rendering that every comparison in the code applies to both
  sides, so keeping the numeric value is observationally equivalent.
* `hashlib.sha256(...).hexdigest()` and `secrets.token_hex(16)` are external
  primitives (the spec scopes password hashing and token randomness out as
  pluggable collaborators); they enter the model as an explicit function
  parameter `sha256_hexdigest` and an explicit `fresh` token argument.
* Each HTTP handler returns `Except HTTPException response × DB` (readers
  return no new state); `raise HTTPException(...)` is the `.error` case.
-/

namespace MiniShop

/-- The error type of `fastapi.HTTPException(status_code, detail)`. -/
structure HTTPException where
  status_code : Nat
  detail : String
deriving Repr, DecidableEq

/-- Stored document of the `user` collection (`schemas.User` plus the
store-assigned `_id`). -/
structure UserDoc where
  _id : Nat
  name : String
  email : String
  password_hash : String
  address : Option String
  is_admin : Bool
  token : Option String
deriving Repr, DecidableEq

/-- Stored document of the `product` collection (`schemas.Product` plus the
store-assigned `_id`). -/
structure ProductDoc where
  _id : Nat
  title : String
  description : Option String
  price : Rat
  category : String
  image : Option String
  in_stock : Bool
deriving Repr, DecidableEq

/-- `schemas.OrderItem`.  The only `Field` constraint is `quantity ≥ 1`
(checked by `OrderItem.valid`); `price` is an unconstrained float. -/
structure OrderItem where
  product_id : String
  title : String
  price : Rat
  quantity : Int
  image : Option String
deriving Repr, DecidableEq

/-- Pydantic validation of one `OrderItem`: `quantity: int = Field(..., ge=1)`
is the only constraint; in particular `price` has no lower bound. -/
def OrderItem.valid (i : OrderItem) : Bool :=
  1 ≤ i.quantity

/-- Stored document of the `order` collection (`schemas.Order` plus the
store-assigned `_id` and `created_at`; see `DB.insert_order`). -/
structure OrderDoc where
  _id : Nat
  created_at : Nat
  user_id : Option Nat
  name : String
  address : String
  payment_method : String
  items : List OrderItem
  total : Rat
  status : String
deriving Repr, DecidableEq

/-- The document store: one list per collection, in natural (insertion)
order, plus the id/clock counters consumed by insertion. -/
structure DB where
  users : List UserDoc
  products : List ProductDoc
  orders : List OrderDoc
  next_id : Nat
  now : Nat
deriving Repr, DecidableEq

/-- Mongo `update_one`: rewrite the first document matching the filter,
leave the rest untouched. -/
def update_first {α : Type} (p : α → Bool) (f : α → α) : List α → List α
  | [] => []
  | x :: xs => if p x then f x :: xs else x :: update_first p f xs

/-- Mongo `delete_one`: remove the first document matching the filter. -/
def delete_first {α : Type} (p : α → Bool) : List α → List α
  | [] => []
  | x :: xs => if p x then xs else x :: delete_first p xs

/-- Modelled from the spec: `create_document` is defined in `database.py`,
which is not under `src/`.  Per the spec it persists the validated model in
the lowercased collection and the order-listing endpoint returns records
"ordered by creation time, most recent first", so insertion assigns a fresh
`_id` and stamps `created_at` from a monotone clock, returning the new id. -/
def DB.insert_user (db : DB) (name email password_hash : String)
    (address : Option String) (is_admin : Bool) (token : Option String) :
    Nat × DB :=
  (db.next_id,
    ⟨db.users ++ [⟨db.next_id, name, email, password_hash, address, is_admin, token⟩],
     db.products, db.orders, db.next_id + 1, db.now + 1⟩)

/-- Modelled from the spec: `create_document` for the `product` collection
(see `DB.insert_user`). -/
def DB.insert_product (db : DB) (title : String) (description : Option String)
    (price : Rat) (category : String) (image : Option String) (in_stock : Bool) :
    Nat × DB :=
  (db.next_id,
    ⟨db.users,
     db.products ++ [⟨db.next_id, title, description, price, category, image, in_stock⟩],
     db.orders, db.next_id + 1, db.now + 1⟩)

/-- Modelled from the spec: `create_document` for the `order` collection
(see `DB.insert_user`); the stamped `created_at` is the listing sort key. -/
def DB.insert_order (db : DB) (user_id : Option Nat)
    (name address payment_method : String) (items : List OrderItem)
    (total : Rat) (status : String) : Nat × DB :=
  (db.next_id,
    ⟨db.users, db.products,
     db.orders ++ [⟨db.next_id, db.now, user_id, name, address, payment_method, items, total, status⟩],
     db.next_id + 1, db.now + 1⟩)

/-- main.py `hash_password`: delegates to the external primitive
`hashlib.sha256(password.encode()).hexdigest()`, which the spec scopes out
as a pluggable one-way function; it enters the model as the parameter
`sha256_hexdigest`. -/
def hash_password (sha256_hexdigest : String → String) (password : String) : String :=
  sha256_hexdigest password

/-- main.py `user_from_token`: `None` and the empty string are falsy and
resolve to anonymous; otherwise `find_one({"token": token})`, the first user
document whose stored token equals the value, and no match is anonymous. -/
def user_from_token (db : DB) (token : Option String) : Option UserDoc :=
  match token with
  | none => none
  | some t =>
    if t = "" then none
    else db.users.find? (fun u => u.token = some t)

/-- The header-to-token step every protected handler repeats:
`token = None; if authorization and authorization.startswith("Bearer "):
token = authorization.split(" ", 1)[1]`.  Given the prefix check, splitting
once at the first space keeps everything after `"Bearer "`. -/
def bearer_token (authorization : Option String) : Option String :=
  match authorization with
  | none => none
  | some a =>
    if a ≠ "" && "Bearer ".toList.isPrefixOf a.toList then
      some (String.mk (a.toList.drop 7))
    else none

/-- bson `ObjectId(s)` for a string argument: succeeds exactly on
24-character hex strings; the value is the number the hex digits denote
(case-insensitively, matching `ObjectId`'s normalization). -/
def hex_digit_val (c : Char) : Nat :=
  if c.isDigit then c.toNat - '0'.toNat
  else if 'a' ≤ c && c ≤ 'f' then c.toNat - 'a'.toNat + 10
  else c.toNat - 'A'.toNat + 10

/-- Whether a character is one of `0-9a-fA-F`. -/
def is_hex_digit (c : Char) : Bool :=
  c.isDigit || ('a' ≤ c && c ≤ 'f') || ('A' ≤ c && c ≤ 'F')

/-- Lower-casing of a string's characters, the view of strings the
case-insensitive matcher works on. -/
def str_lower (s : String) : List Char :=
  s.toList.map Char.toLower

/-- Parse a string as an `ObjectId` (see `hex_digit_val`). -/
def parse_object_id (s : String) : Option Nat :=
  if s.length = 24 && s.toList.all is_hex_digit then
    some (s.toList.foldl (fun acc c => 16 * acc + hex_digit_val c) 0)
  else none

/-- main.py `SignupPayload` (the `EmailStr` shape check is the HTTP
framework's and out of scope). -/
structure SignupPayload where
  name : String
  email : String
  password : String
deriving Repr, DecidableEq

/-- main.py `LoginPayload`. -/
structure LoginPayload where
  email : String
  password : String
deriving Repr, DecidableEq

/-- main.py `ProductPayload`, after request parsing: a field omitted from the
JSON body arrives here as its declared default (`description`/`image` as
`none`, `in_stock` as `true`). -/
structure ProductPayload where
  title : String
  description : Option String
  price : Rat
  category : String
  image : Option String
  in_stock : Bool
deriving Repr, DecidableEq

/-- main.py `CheckoutPayload`. -/
structure CheckoutPayload where
  name : String
  address : String
  payment_method : String
  items : List OrderItem
deriving Repr, DecidableEq

/-- Request parsing of a `CheckoutPayload`: the framework validates each
nested `OrderItem` against its `Field` constraints before the handler runs. -/
def CheckoutPayload.valid (p : CheckoutPayload) : Bool :=
  p.items.all OrderItem.valid

/-- Pydantic validation performed by `Product(**payload.model_dump())`:
`price: float = Field(..., ge=0)` is the one value constraint. -/
def product_price_ok (price : Rat) : Bool :=
  0 ≤ price

/-- Pydantic validation performed by `Order(...)`:
`total: float = Field(..., ge=0)` is the one value constraint on the fields
the handler computes (the items were already validated at request parsing). -/
def order_total_ok (total : Rat) : Bool :=
  0 ≤ total

/-- Response of `POST /api/auth/signup`. -/
structure SignupResponse where
  message : String
  user_id : Nat
deriving Repr, DecidableEq

/-- Response of `POST /api/auth/login`. -/
structure LoginResponse where
  token : String
  name : String
  is_admin : Bool
deriving Repr, DecidableEq

/-- Response of `POST /api/orders`. -/
structure CheckoutResponse where
  order_id : Nat
  total : Rat
deriving Repr, DecidableEq

/-- main.py `signup`: reject an already-registered email with 400, else store
a fresh user with `is_admin=False`, `token=None`, digest of the password. -/
def signup (sha256_hexdigest : String → String) (db : DB) (payload : SignupPayload) :
    Except HTTPException SignupResponse × DB :=
  match db.users.find? (fun u => u.email = payload.email) with
  | some _ => (.error ⟨400, "Email already registered"⟩, db)
  | none =>
    let r := db.insert_user payload.name payload.email
      (hash_password sha256_hexdigest payload.password) none false none
    (.ok ⟨"Signup successful", r.1⟩, r.2)

/-- main.py `login`: 401 unless the first user found for the email has the
matching digest; on success overwrite that user's token with the freshly
issued one (`secrets.token_hex(16)`, modelled as the explicit `fresh`
argument since the RNG is external). -/
def login (sha256_hexdigest : String → String) (db : DB) (fresh : String)
    (payload : LoginPayload) : Except HTTPException LoginResponse × DB :=
  match db.users.find? (fun u => u.email = payload.email) with
  | none => (.error ⟨401, "Invalid credentials"⟩, db)
  | some user =>
    if user.password_hash ≠ hash_password sha256_hexdigest payload.password then
      (.error ⟨401, "Invalid credentials"⟩, db)
    else
      (.ok ⟨fresh, user.name, user.is_admin⟩,
       ⟨update_first (fun u => u._id = user._id) (fun u =>
          ⟨u._id, u.name, u.email, u.password_hash, u.address, u.is_admin, some fresh⟩)
          db.users,
        db.products, db.orders, db.next_id, db.now⟩)

/-- Modelled from the spec: Mongo's `$regex` query with the `i` option; the
store's query execution is an external collaborator ("the document-store
driver and its query execution" are out of scope), and the spec describes
catalog search as "optional case-insensitive substring match against title
or category", which is what the operator computes for the pattern strings it
is given here. -/
def regex_i_matches (pattern s : String) : Bool :=
  decide (List.IsInfix (str_lower pattern) (str_lower s))

/-- main.py `list_products`: an absent or empty (falsy) `search` leaves the
query empty; otherwise `$or` of case-insensitive matches on title and
category.  Read-only. -/
def list_products (db : DB) (search : Option String) : List ProductDoc :=
  match search with
  | none => db.products
  | some s =>
    if s = "" then db.products
    else db.products.filter (fun p => regex_i_matches s p.title || regex_i_matches s p.category)

/-- main.py `create_product`: 403 unless the resolved identity is an admin;
then `Product(**payload.model_dump())` validates the payload (a pydantic
`ValidationError` escapes the handler as a 500) and the document is stored. -/
def create_product (db : DB) (payload : ProductPayload)
    (authorization : Option String) : Except HTTPException Nat × DB :=
  match user_from_token db (bearer_token authorization) with
  | none => (.error ⟨403, "Admin only"⟩, db)
  | some user =>
    if !user.is_admin then (.error ⟨403, "Admin only"⟩, db)
    else if !product_price_ok payload.price then
      (.error ⟨500, "Internal Server Error"⟩, db)
    else
      let r := db.insert_product payload.title payload.description payload.price
        payload.category payload.image payload.in_stock
      (.ok r.1, r.2)

/-- main.py `update_product`: 403 unless admin, then 400 on an unparsable id,
then `$set` of every payload field on the first matching document, 404 when
none matches.  The raw payload dict is written, bypassing `Product`'s
validation. -/
def update_product (db : DB) (product_id : String) (payload : ProductPayload)
    (authorization : Option String) : Except HTTPException Bool × DB :=
  match user_from_token db (bearer_token authorization) with
  | none => (.error ⟨403, "Admin only"⟩, db)
  | some user =>
    if !user.is_admin then (.error ⟨403, "Admin only"⟩, db)
    else
      match parse_object_id product_id with
      | none => (.error ⟨400, "Invalid product id"⟩, db)
      | some oid =>
        if db.products.any (fun p => p._id = oid) then
          (.ok true,
           ⟨db.users,
            update_first (fun p => p._id = oid) (fun p =>
              ⟨p._id, payload.title, payload.description, payload.price,
               payload.category, payload.image, payload.in_stock⟩) db.products,
            db.orders, db.next_id, db.now⟩)
        else (.error ⟨404, "Product not found"⟩, db)

/-- main.py `delete_product`: 403 unless admin, then 400 on an unparsable id,
then `delete_one`, 404 when nothing was deleted. -/
def delete_product (db : DB) (product_id : String)
    (authorization : Option String) : Except HTTPException Bool × DB :=
  match user_from_token db (bearer_token authorization) with
  | none => (.error ⟨403, "Admin only"⟩, db)
  | some user =>
    if !user.is_admin then (.error ⟨403, "Admin only"⟩, db)
    else
      match parse_object_id product_id with
      | none => (.error ⟨400, "Invalid product id"⟩, db)
      | some oid =>
        if db.products.any (fun p => p._id = oid) then
          (.ok true,
           ⟨db.users, delete_first (fun p => p._id = oid) db.products,
            db.orders, db.next_id, db.now⟩)
        else (.error ⟨404, "Product not found"⟩, db)

/-- The server-side checkout total:
`sum(item.price * item.quantity for item in payload.items)`. -/
def checkout_total (items : List OrderItem) : Rat :=
  (items.map (fun i => i.price * (i.quantity : Rat))).sum

/-- main.py `create_order`: resolve the (possibly anonymous) identity, compute
the total server-side, construct the `Order` (whose pydantic validation
requires `total ≥ 0`; a `ValidationError` escapes as a 500 and nothing is
written), store it with `status="pending"`, return id and total. -/
def create_order (db : DB) (payload : CheckoutPayload)
    (authorization : Option String) : Except HTTPException CheckoutResponse × DB :=
  let user := user_from_token db (bearer_token authorization)
  let total := checkout_total payload.items
  if !order_total_ok total then (.error ⟨500, "Internal Server Error"⟩, db)
  else
    let r := db.insert_order (user.map (fun u => u._id)) payload.name
      payload.address payload.payment_method payload.items total "pending"
    (.ok ⟨r.1, total⟩, r.2)

/-- Descending-by-creation-time comparison used by
`find(query).sort("created_at", -1)`. -/
def newest_first (a b : OrderDoc) : Bool :=
  b.created_at ≤ a.created_at

/-- main.py `list_orders`: 401 for anonymous; a non-admin's query is
restricted to their own `user_id`; the matching orders are returned sorted
newest-first.  Read-only. -/
def list_orders (db : DB) (authorization : Option String) :
    Except HTTPException (List OrderDoc) :=
  match user_from_token db (bearer_token authorization) with
  | none => .error ⟨401, "Unauthorized"⟩
  | some user =>
    let matching :=
      if user.is_admin then db.orders
      else db.orders.filter (fun o => o.user_id = some user._id)
    .ok (matching.mergeSort newest_first)

/-- The caller of a request carrying the given Authorization header resolves
to an identity with admin privileges. -/
def admin_caller (db : DB) (authorization : Option String) : Prop :=
  ∃ u, user_from_token db (bearer_token authorization) = some u ∧ u.is_admin = true

/-- The spec's search notion: `needle` occurs contiguously inside `haystack`
when both are lower-cased. -/
def contains_ci (haystack needle : String) : Prop :=
  ∃ pre post, pre ++ str_lower needle ++ post = str_lower haystack

/-! ### Helper lemmas -/

/-- In a list whose elements have pairwise distinct keys, a key determines
the element. -/
theorem key_inj {α β : Type} (f : α → β) {l : List α}
    (h : l.Pairwise (fun a b => f a ≠ f b)) :
    ∀ u ∈ l, ∀ v ∈ l, f u = f v → u = v := by
  induction l with
  | nil => intro u hu; simp at hu
  | cons x xs ih =>
    rcases List.pairwise_cons.mp h with ⟨hx, hxs⟩
    intro u hu v hv he
    rcases List.mem_cons.mp hu with hux | hu
    · rcases List.mem_cons.mp hv with hvx | hv
      · rw [hux, hvx]
      · exact absurd (hux ▸ he) (hx v hv)
    · rcases List.mem_cons.mp hv with hvx | hv
      · exact absurd (hvx ▸ he).symm (hx u hu)
      · exact ih hxs u hu v hv he

/-- `find?` returns the unique element satisfying the predicate. -/
theorem find_eq_of_unique {α : Type} (p : α → Bool) {l : List α} {u : α}
    (hu : u ∈ l) (hp : p u = true) (huniq : ∀ v ∈ l, p v = true → v = u) :
    l.find? p = some u := by
  induction l with
  | nil => simp at hu
  | cons x xs ih =>
    cases hx : p x with
    | true =>
      have hxu : x = u := huniq x (List.mem_cons_self x xs) hx
      subst hxu
      simp [List.find?_cons, hx]
    | false =>
      have hu2 : u ∈ xs := by
        rcases List.mem_cons.mp hu with hux | h
        · rw [hux] at hp
          rw [hp] at hx
          exact Bool.noConfusion hx
        · exact h
      simp only [List.find?_cons, hx]
      exact ih hu2 (fun v hv => huniq v (List.mem_cons_of_mem x hv))

/-- Elements of `update_first p f l`: either an untouched element of `l`,
or `f` applied to an element of `l` satisfying `p`. -/
theorem mem_update_first {α : Type} {p : α → Bool} {f : α → α} {l : List α} {q : α}
    (hq : q ∈ update_first p f l) : q ∈ l ∨ ∃ x ∈ l, p x = true ∧ q = f x := by
  induction l with
  | nil => simp [update_first] at hq
  | cons x xs ih =>
    by_cases hx : p x = true
    · simp only [update_first, hx, if_true] at hq
      rcases List.mem_cons.mp hq with rfl | hq
      · exact Or.inr ⟨x, List.mem_cons_self x xs, hx, rfl⟩
      · exact Or.inl (List.mem_cons_of_mem x hq)
    · simp only [update_first, hx, if_false] at hq
      rcases List.mem_cons.mp hq with rfl | hq
      · exact Or.inl (List.mem_cons_self q xs)
      · rcases ih hq with h | ⟨y, hy, hpy, rfl⟩
        · exact Or.inl (List.mem_cons_of_mem x h)
        · exact Or.inr ⟨y, List.mem_cons_of_mem x hy, hpy, rfl⟩

/-! ### Claims -/

/-- C1: on each AdminOnly route (product create, update, delete) the request
is denied with exactly 403 "Admin only" iff the resolved identity is absent
or not an admin (anonymous and non-admin callers alike, never a 401), the
store is untouched on denial, and the gate fires before id validation or any
write: the 403 is returned for every `product_id`, valid or not. -/
theorem C1_admin_only_gate (db : DB) (authorization : Option String)
    (payload : ProductPayload) (product_id : String) :
    ((create_product db payload authorization).1 = .error ⟨403, "Admin only"⟩ ↔
      ¬ admin_caller db authorization) ∧
    ((update_product db product_id payload authorization).1 = .error ⟨403, "Admin only"⟩ ↔
      ¬ admin_caller db authorization) ∧
    ((delete_product db product_id authorization).1 = .error ⟨403, "Admin only"⟩ ↔
      ¬ admin_caller db authorization) ∧
    (¬ admin_caller db authorization →
      (create_product db payload authorization).2 = db ∧
      (update_product db product_id payload authorization).2 = db ∧
      (delete_product db product_id authorization).2 = db) := by
  have hiff : ∀ (u : UserDoc),
      user_from_token db (bearer_token authorization) = some u →
      (¬ admin_caller db authorization ↔ u.is_admin = false) := by
    intro u hu
    constructor
    · intro h
      by_contra hadm
      exact h ⟨u, hu, Bool.not_eq_false u.is_admin |>.mp hadm⟩
    · rintro h ⟨v, hv, hadm⟩
      rw [hu] at hv
      cases hv
      rw [h] at hadm
      exact Bool.false_ne_true hadm
  cases hu : user_from_token db (bearer_token authorization) with
  | none =>
    have hnot : ¬ admin_caller db authorization := by
      rintro ⟨v, hv, _⟩
      rw [hu] at hv
      exact Option.noConfusion hv
    refine ⟨?_, ?_, ?_, ?_⟩ <;>
      simp [create_product, update_product, delete_product, hu, hnot]
  | some u =>
    cases hadm : u.is_admin with
    | false =>
      have hnot : ¬ admin_caller db authorization := (hiff u hu).mpr hadm
      refine ⟨?_, ?_, ?_, ?_⟩ <;>
        simp [create_product, update_product, delete_product, hu, hadm, hnot]
    | true =>
      have hyes : admin_caller db authorization := ⟨u, hu, hadm⟩
      refine ⟨?_, ?_, ?_, ?_⟩
      · simp only [create_product, hu, hadm, Bool.not_true, Bool.false_eq_true, if_false]
        constructor
        · intro h
          by_cases hp : product_price_ok payload.price <;> simp [hp] at h
        · intro h; exact absurd hyes h
      · simp only [update_product, hu, hadm, Bool.not_true, Bool.false_eq_true, if_false]
        constructor
        · intro h
          cases hp : parse_object_id product_id with
          | none => simp [hp] at h
          | some oid =>
            by_cases hm : db.products.any (fun p => p._id = oid) <;> simp [hp, hm] at h
        · intro h; exact absurd hyes h
      · simp only [delete_product, hu, hadm, Bool.not_true, Bool.false_eq_true, if_false]
        constructor
        · intro h
          cases hp : parse_object_id product_id with
          | none => simp [hp] at h
          | some oid =>
            by_cases hm : db.products.any (fun p => p._id = oid) <;> simp [hp, hm] at h
        · intro h; exact absurd hyes h
      · intro h; exact absurd hyes h

/-- Witness for C1 at a concrete store: the anonymous caller and a non-admin
caller both get 403 from `create_product`, and the store is unchanged. -/
theorem C1_admin_only_gate_witness :
    ((create_product ⟨[⟨7, "Bob", "b@x.com", "h", none, false, some "tok"⟩], [], [], 8, 0⟩
        ⟨"T", none, 1, "c", none, true⟩ (some "Bearer tok")).1 =
      .error ⟨403, "Admin only"⟩) ∧
    ((create_product ⟨[⟨7, "Bob", "b@x.com", "h", none, false, some "tok"⟩], [], [], 8, 0⟩
        ⟨"T", none, 1, "c", none, true⟩ (some "Bearer tok")).2 =
      ⟨[⟨7, "Bob", "b@x.com", "h", none, false, some "tok"⟩], [], [], 8, 0⟩) := by
  have h := C1_admin_only_gate
    ⟨[⟨7, "Bob", "b@x.com", "h", none, false, some "tok"⟩], [], [], 8, 0⟩
    (some "Bearer tok") ⟨"T", none, 1, "c", none, true⟩ "x"
  have hres : user_from_token
      ⟨[⟨7, "Bob", "b@x.com", "h", none, false, some "tok"⟩], [], [], 8, 0⟩
      (bearer_token (some "Bearer tok")) =
      some ⟨7, "Bob", "b@x.com", "h", none, false, some "tok"⟩ := by decide
  have hnot : ¬ admin_caller
      ⟨[⟨7, "Bob", "b@x.com", "h", none, false, some "tok"⟩], [], [], 8, 0⟩
      (some "Bearer tok") := by
    rintro ⟨v, hv, hadm⟩
    rw [hres] at hv
    cases hv
    exact Bool.noConfusion hadm
  exact ⟨h.1.mpr hnot, (h.2.2.2 hnot).1⟩

/-- C6: a signup whose email is already on file is rejected with
400 "Email already registered" and the whole store is left unchanged;
otherwise the new user is appended with `is_admin = false`, `token = none`,
and password digest the hash of the submitted plaintext. -/
theorem C6_signup_conflict (sha256_hexdigest : String → String) (db : DB)
    (payload : SignupPayload) :
    ((∃ u ∈ db.users, u.email = payload.email) →
      signup sha256_hexdigest db payload =
        (.error ⟨400, "Email already registered"⟩, db)) ∧
    ((∀ u ∈ db.users, u.email ≠ payload.email) →
      signup sha256_hexdigest db payload =
        (.ok ⟨"Signup successful", db.next_id⟩,
         ⟨db.users ++ [⟨db.next_id, payload.name, payload.email,
            hash_password sha256_hexdigest payload.password, none, false, none⟩],
          db.products, db.orders, db.next_id + 1, db.now + 1⟩)) := by
  constructor
  · rintro ⟨u, hu, he⟩
    cases hf : db.users.find? (fun v => v.email = payload.email) with
    | none =>
      have := List.find?_eq_none.mp hf u hu
      simp [he] at this
    | some v => simp [signup, hf]
  · intro h
    cases hf : db.users.find? (fun v => v.email = payload.email) with
    | none => simp [signup, hf, DB.insert_user, hash_password]
    | some v =>
      have hvp := List.find?_some hf
      have hvmem := List.mem_of_find?_eq_some hf
      simp at hvp
      exact absurd hvp (h v hvmem)

/-- Witness for C6 at a concrete store: re-registering an existing email is
rejected with 400 and the store is returned unchanged. -/
theorem C6_signup_conflict_witness :
    signup (fun s => s) ⟨[⟨0, "Ann", "a@x.com", "pw1", none, false, none⟩], [], [], 1, 0⟩
      ⟨"Bob", "a@x.com", "pw2"⟩ =
    (.error ⟨400, "Email already registered"⟩,
     ⟨[⟨0, "Ann", "a@x.com", "pw1", none, false, none⟩], [], [], 1, 0⟩) :=
  (C6_signup_conflict (fun s => s)
      ⟨[⟨0, "Ann", "a@x.com", "pw1", none, false, none⟩], [], [], 1, 0⟩
      ⟨"Bob", "a@x.com", "pw2"⟩).1
    ⟨⟨0, "Ann", "a@x.com", "pw1", none, false, none⟩, by decide, by decide⟩

/-- C3: bearer-token resolution cannot fail a request: an absent header, a
header without the `"Bearer "` prefix, and the empty token of the bare
`"Bearer "` header all resolve to the anonymous identity, as does a token no
stored user carries; a token carried by exactly one user resolves to that
user's identity. -/
theorem C3_token_resolution (db : DB) (a t : String) (u : UserDoc) :
    user_from_token db (bearer_token none) = none ∧
    ("Bearer ".toList.isPrefixOf a.toList = false →
      user_from_token db (bearer_token (some a)) = none) ∧
    user_from_token db (bearer_token (some "Bearer ")) = none ∧
    ((∀ v ∈ db.users, v.token ≠ some t) → user_from_token db (some t) = none) ∧
    (u ∈ db.users → u.token = some t → t ≠ "" →
      (∀ v ∈ db.users, v.token = some t → v = u) →
      user_from_token db (some t) = some u) := by
  refine ⟨rfl, ?_, ?_, ?_, ?_⟩
  · intro hpre
    have hnp : ¬ ("Bearer ".toList <+: a.toList) := by
      rw [← List.isPrefixOf_iff_prefix, hpre]
      exact Bool.false_ne_true
    simp [bearer_token, user_from_token, String.toList, hnp]
    simp [String.toList] at hnp
    simp [hnp]
  · have hb : bearer_token (some "Bearer ") = some "" := by decide
    rw [hb]
    simp [user_from_token]
  · intro hnone
    by_cases ht : t = ""
    · simp [user_from_token, ht]
    · simp only [user_from_token, ht, if_false]
      rw [List.find?_eq_none]
      intro v hv
      simp [hnone v hv]
  · intro hmem htok ht huniq
    simp only [user_from_token, ht, if_false]
    exact find_eq_of_unique _ hmem (by simp [htok]) (fun v hv hp => huniq v hv (by simpa using hp))

/-- Witness for C3 at a concrete store: the stored token resolves to its
user, and a header with the wrong scheme resolves to anonymous. -/
theorem C3_token_resolution_witness :
    user_from_token ⟨[⟨1, "A", "a@x.com", "h", none, false, some "tk"⟩], [], [], 2, 0⟩
      (some "tk") = some ⟨1, "A", "a@x.com", "h", none, false, some "tk"⟩ ∧
    user_from_token ⟨[⟨1, "A", "a@x.com", "h", none, false, some "tk"⟩], [], [], 2, 0⟩
      (bearer_token (some "Token tk")) = none := by
  have h := C3_token_resolution
    ⟨[⟨1, "A", "a@x.com", "h", none, false, some "tk"⟩], [], [], 2, 0⟩
    "Token tk" "tk" ⟨1, "A", "a@x.com", "h", none, false, some "tk"⟩
  exact ⟨h.2.2.2.2 (by decide) (by decide) (by decide) (by decide), h.2.1 (by decide)⟩

/-- After `update_first` rewrites the sole element satisfying `p`, no element
satisfies `q`, provided `q` implied `p` beforehand, the rewritten element
fails `q`, and `p` holds for at most one position. -/
theorem find_none_after_update_first {α : Type} (p q : α → Bool) (f : α → α)
    {l : List α}
    (hq : ∀ v ∈ l, q v = true → p v = true)
    (hfq : ∀ v, q (f v) = false)
    (hpair : l.Pairwise (fun x y => ¬(p x = true ∧ p y = true))) :
    (update_first p f l).find? q = none := by
  induction l with
  | nil => rfl
  | cons x xs ih =>
    rcases List.pairwise_cons.mp hpair with ⟨hx, hxs⟩
    cases hpx : p x with
    | true =>
      simp only [update_first, hpx, if_true]
      rw [List.find?_cons, hfq x]
      rw [List.find?_eq_none]
      intro v hv hqv
      have hpv := hq v (List.mem_cons_of_mem x hv) (by simpa using hqv)
      exact hx v hv ⟨hpx, hpv⟩
    | false =>
      simp only [update_first, hpx, Bool.false_eq_true, if_false]
      rw [List.find?_cons]
      cases hqx : q x with
      | true =>
        have := hq x (List.mem_cons_self x xs) hqx
        rw [this] at hpx
        exact Bool.noConfusion hpx
      | false =>
        exact ih (fun v hv => hq v (List.mem_cons_of_mem x hv)) hxs

/-- C2: a login succeeds iff some stored user carries the submitted email and
the digest of the submitted password (the store holding at most one record
per email); failures return 401 with the store unchanged; a success stores
the freshly issued token on exactly that user's record, replacing the
previous one, after which the previously issued token no longer resolves to
any identity. -/
theorem C2_login_rotates_token (sha256_hexdigest : String → String) (db : DB)
    (fresh : String) (payload : LoginPayload)
    (hemail : db.users.Pairwise (fun x y => x.email ≠ y.email)) :
    ((∃ r, (login sha256_hexdigest db fresh payload).1 = .ok r) ↔
      ∃ u ∈ db.users, u.email = payload.email ∧
        u.password_hash = hash_password sha256_hexdigest payload.password) ∧
    ((∀ u ∈ db.users, ¬(u.email = payload.email ∧
        u.password_hash = hash_password sha256_hexdigest payload.password)) →
      login sha256_hexdigest db fresh payload =
        (.error ⟨401, "Invalid credentials"⟩, db)) ∧
    (∀ u ∈ db.users, u.email = payload.email →
      u.password_hash = hash_password sha256_hexdigest payload.password →
      (login sha256_hexdigest db fresh payload).1 = .ok ⟨fresh, u.name, u.is_admin⟩ ∧
      ((login sha256_hexdigest db fresh payload).2).users =
        update_first (fun v => v._id = u._id)
          (fun v => ⟨v._id, v.name, v.email, v.password_hash, v.address, v.is_admin, some fresh⟩)
          db.users ∧
      ((login sha256_hexdigest db fresh payload).2).products = db.products ∧
      ((login sha256_hexdigest db fresh payload).2).orders = db.orders) ∧
    (∀ u t0, u ∈ db.users → u.email = payload.email →
      u.password_hash = hash_password sha256_hexdigest payload.password →
      u.token = some t0 →
      db.users.Pairwise (fun x y => x._id ≠ y._id) →
      (∀ v ∈ db.users, v.token = some t0 → v = u) →
      fresh ≠ t0 →
      user_from_token (login sha256_hexdigest db fresh payload).2 (some t0) = none) := by
  have hfind : ∀ u ∈ db.users, u.email = payload.email →
      db.users.find? (fun v => v.email = payload.email) = some u := by
    intro u hu he
    refine find_eq_of_unique _ hu (by simp [he]) ?_
    intro v hv hp
    exact key_inj UserDoc.email hemail v hv u hu (by simpa [he] using hp)
  refine ⟨⟨?_, ?_⟩, ?_, ?_, ?_⟩
  · rintro ⟨r, hr⟩
    cases hf : db.users.find? (fun v => v.email = payload.email) with
    | none => simp [login, hf] at hr
    | some v =>
      by_cases hpw : v.password_hash = hash_password sha256_hexdigest payload.password
      · exact ⟨v, List.mem_of_find?_eq_some hf, by simpa using List.find?_some hf, hpw⟩
      · simp [login, hf, hpw] at hr
  · rintro ⟨u, hu, he, hh⟩
    rw [login, hfind u hu he]
    simp [hh]
  · intro h
    cases hf : db.users.find? (fun v => v.email = payload.email) with
    | none => simp [login, hf]
    | some v =>
      have hvmem := List.mem_of_find?_eq_some hf
      have hve : v.email = payload.email := by simpa using List.find?_some hf
      have hpw : v.password_hash ≠ hash_password sha256_hexdigest payload.password := by
        intro hc
        exact h v hvmem ⟨hve, hc⟩
      simp [login, hf, hpw]
  · intro u hu he hh
    rw [login, hfind u hu he]
    simp [hh]
  · intro u t0 hu he hh htok hids huniq hfresh
    have hres : (login sha256_hexdigest db fresh payload).2 =
        ⟨update_first (fun v => v._id = u._id)
          (fun v => ⟨v._id, v.name, v.email, v.password_hash, v.address, v.is_admin, some fresh⟩)
          db.users, db.products, db.orders, db.next_id, db.now⟩ := by
      rw [login, hfind u hu he]
      simp [hh]
    rw [hres]
    by_cases ht0 : t0 = ""
    · simp [user_from_token, ht0]
    · simp only [user_from_token, ht0, if_false]
      apply find_none_after_update_first
      · intro v hv hqv
        have hvt : v.token = some t0 := by simpa using hqv
        have : v = u := huniq v hv hvt
        simp [this]
      · intro v
        simp
        intro hc
        exact absurd hc hfresh
      · refine hids.imp ?_
        intro x y hxy hc
        have hx : x._id = u._id := by simpa using hc.1
        have hy : y._id = u._id := by simpa using hc.2
        exact hxy (hx.trans hy.symm)

/-- Witness for C2 at a concrete store: Ann logs in again and the previously
issued token "T1" now resolves to no identity. -/
theorem C2_login_rotates_token_witness :
    user_from_token
      (login (fun _ => "h") ⟨[⟨1, "Ann", "ann@x.com", "h", none, false, some "T1"⟩], [], [], 2, 5⟩
        "T2" ⟨"ann@x.com", "pw1"⟩).2 (some "T1") = none := by
  have h := C2_login_rotates_token (fun _ => "h")
    ⟨[⟨1, "Ann", "ann@x.com", "h", none, false, some "T1"⟩], [], [], 2, 5⟩
    "T2" ⟨"ann@x.com", "pw1"⟩ (by decide)
  exact h.2.2.2 ⟨1, "Ann", "ann@x.com", "h", none, false, some "T1"⟩ "T1"
    (by decide) (by decide) (by decide) (by decide) (by decide)
    (by decide) (by decide)

/-- The descending merge sort used by `list_orders` really sorts by
creation time, newest first. -/
theorem mergeSort_newest_first_sorted (l : List OrderDoc) :
    (l.mergeSort newest_first).Pairwise (fun x y => y.created_at ≤ x.created_at) := by
  have htrans : ∀ (x y z : OrderDoc),
      newest_first x y → newest_first y z → newest_first x z := by
    intro x y z hxy hyz
    simp only [newest_first, decide_eq_true_eq] at hxy hyz ⊢
    exact hyz.trans hxy
  have htotal : ∀ (x y : OrderDoc), newest_first x y || newest_first y x := by
    intro x y
    simp only [newest_first]
    rcases Nat.le_total y.created_at x.created_at with h | h <;> simp [h]
  refine (List.sorted_mergeSort htrans htotal l).imp ?_
  intro x y hxy
  simpa [newest_first] using hxy

/-- C4: listing orders anonymously returns 401; a non-admin identity
receives exactly the orders whose `user_id` is its own id; an admin identity
receives all orders; both result lists are sorted newest-first by creation
time. -/
theorem C4_order_listing (db : DB) (a : Option String) :
    (user_from_token db (bearer_token a) = none →
      list_orders db a = .error ⟨401, "Unauthorized"⟩) ∧
    (∀ u, user_from_token db (bearer_token a) = some u → u.is_admin = false →
      ∃ l, list_orders db a = .ok l ∧
        l.Perm (db.orders.filter (fun o => o.user_id = some u._id)) ∧
        l.Pairwise (fun x y => y.created_at ≤ x.created_at)) ∧
    (∀ u, user_from_token db (bearer_token a) = some u → u.is_admin = true →
      ∃ l, list_orders db a = .ok l ∧ l.Perm db.orders ∧
        l.Pairwise (fun x y => y.created_at ≤ x.created_at)) := by
  refine ⟨?_, ?_, ?_⟩
  · intro h
    simp [list_orders, h]
  · intro u hu hadm
    refine ⟨(db.orders.filter (fun o => o.user_id = some u._id)).mergeSort newest_first,
      ?_, List.mergeSort_perm _ _, mergeSort_newest_first_sorted _⟩
    simp [list_orders, hu, hadm]
  · intro u hu hadm
    refine ⟨db.orders.mergeSort newest_first,
      ?_, List.mergeSort_perm _ _, mergeSort_newest_first_sorted _⟩
    simp [list_orders, hu, hadm]

/-- Witness for C4 at a concrete store: the non-admin caller gets exactly
their own order, newest first. -/
theorem C4_order_listing_witness :
    ∃ l, list_orders
        ⟨[⟨1, "Ann", "a@x.com", "h", none, false, some "tk"⟩],
         [],
         [⟨10, 0, some 1, "Ann", "addr", "card", [], 5, "pending"⟩,
          ⟨11, 1, some 2, "Bob", "addr2", "card", [], 7, "pending"⟩,
          ⟨12, 2, some 1, "Ann", "addr", "card", [], 9, "pending"⟩],
         13, 3⟩ (some "Bearer tk") = .ok l ∧
      l.Perm ([⟨10, 0, some 1, "Ann", "addr", "card", [], 5, "pending"⟩,
          ⟨11, 1, some 2, "Bob", "addr2", "card", [], 7, "pending"⟩,
          ⟨12, 2, some 1, "Ann", "addr", "card", [], 9, "pending"⟩].filter
            (fun o => o.user_id = some (1 : Nat))) ∧
      l.Pairwise (fun x y => y.created_at ≤ x.created_at) := by
  have h := C4_order_listing
    ⟨[⟨1, "Ann", "a@x.com", "h", none, false, some "tk"⟩],
     [],
     [⟨10, 0, some 1, "Ann", "addr", "card", [], 5, "pending"⟩,
      ⟨11, 1, some 2, "Bob", "addr2", "card", [], 7, "pending"⟩,
      ⟨12, 2, some 1, "Ann", "addr", "card", [], 9, "pending"⟩],
     13, 3⟩ (some "Bearer tk")
  exact h.2.1 ⟨1, "Ann", "a@x.com", "h", none, false, some "tk"⟩ (by decide) (by decide)

/-- C5: whenever a checkout persists an order, the returned and the persisted
total are the server-computed sum of price times quantity over the submitted
items (the payload carries no total field, so no client total can be
persisted), and a checkout without an Authorization header whose computed
total is admissible succeeds with the order's `user_id` left null. -/
theorem C5_checkout_server_total (db : DB) (payload : CheckoutPayload)
    (a : Option String) :
    (∀ r, (create_order db payload a).1 = .ok r →
      r.total = checkout_total payload.items ∧
      ((create_order db payload a).2).orders = db.orders ++
        [⟨db.next_id, db.now, (user_from_token db (bearer_token a)).map (fun u => u._id),
          payload.name, payload.address, payload.payment_method, payload.items,
          checkout_total payload.items, "pending"⟩]) ∧
    (0 ≤ checkout_total payload.items →
      ∃ r, (create_order db payload none).1 = .ok r ∧
        r.total = checkout_total payload.items ∧
        ((create_order db payload none).2).orders = db.orders ++
          [⟨db.next_id, db.now, none, payload.name, payload.address,
            payload.payment_method, payload.items,
            checkout_total payload.items, "pending"⟩]) := by
  constructor
  · intro r hr
    cases ht : order_total_ok (checkout_total payload.items) with
    | false => simp [create_order, ht] at hr
    | true =>
      simp only [create_order, ht, Bool.not_true, Bool.false_eq_true, if_false] at hr ⊢
      rcases hr with ⟨rfl⟩
      exact ⟨rfl, by simp [DB.insert_order]⟩
  · intro h
    have ht : order_total_ok (checkout_total payload.items) = true := by
      simp [order_total_ok, h]
    refine ⟨⟨db.next_id, checkout_total payload.items⟩, ?_, rfl, ?_⟩
    · simp [create_order, ht, DB.insert_order]
    · simp [create_order, ht, DB.insert_order, user_from_token, bearer_token]

/-- Witness for C5: the spec's scenario — `items=[{price:10,quantity:3}]`
with no auth header yields total 30 and a null `user_id`. -/
theorem C5_checkout_server_total_witness :
    0 ≤ checkout_total [⟨"p1", "Widget", 10, 3, none⟩] ∧
    checkout_total [⟨"p1", "Widget", 10, 3, none⟩] = 30 ∧
    (∃ r, (create_order ⟨[], [], [], 0, 0⟩ ⟨"Ann", "addr", "card", [⟨"p1", "Widget", 10, 3, none⟩]⟩
        none).1 = .ok r ∧
      r.total = checkout_total [⟨"p1", "Widget", 10, 3, none⟩] ∧
      ((create_order ⟨[], [], [], 0, 0⟩ ⟨"Ann", "addr", "card", [⟨"p1", "Widget", 10, 3, none⟩]⟩
        none).2).orders = [] ++
        [⟨0, 0, none, "Ann", "addr", "card", [⟨"p1", "Widget", 10, 3, none⟩],
          checkout_total [⟨"p1", "Widget", 10, 3, none⟩], "pending"⟩]) :=
  ⟨by norm_num [checkout_total],
   by norm_num [checkout_total],
   (C5_checkout_server_total ⟨[], [], [], 0, 0⟩
      ⟨"Ann", "addr", "card", [⟨"p1", "Widget", 10, 3, none⟩]⟩ none).2
      (by norm_num [checkout_total])⟩

/-- C10: an order item passes validation for any price as long as its
quantity is at least one (a product's price, in contrast, must be
nonnegative), while the order record itself demands a nonnegative total;
hence a checkout whose items sum to a negative total fails the order's
validation before any store write and no order is persisted. -/
theorem C10_negative_total_rejected (db : DB) (payload : CheckoutPayload)
    (a : Option String) (i : OrderItem) (price total : Rat) :
    (1 ≤ i.quantity → OrderItem.valid i = true) ∧
    (product_price_ok price = true ↔ 0 ≤ price) ∧
    (order_total_ok total = true ↔ 0 ≤ total) ∧
    (checkout_total payload.items < 0 →
      create_order db payload a = (.error ⟨500, "Internal Server Error"⟩, db)) := by
  refine ⟨?_, ?_, ?_, ?_⟩
  · intro h
    simpa [OrderItem.valid] using h
  · simp [product_price_ok]
  · simp [order_total_ok]
  · intro h
    have ht : order_total_ok (checkout_total payload.items) = false := by
      simp [order_total_ok, not_le.mpr h]
    simp [create_order, ht]

/-- Witness for C10: an item priced at -5 with quantity 2 passes item
validation, yet checking out it alone is rejected with nothing persisted. -/
theorem C10_negative_total_rejected_witness :
    (1 ≤ (⟨"p1", "X", -5, 2, none⟩ : OrderItem).quantity →
      OrderItem.valid ⟨"p1", "X", -5, 2, none⟩ = true) ∧
    (checkout_total [⟨"p1", "X", -5, 2, none⟩] < 0 ∧
      create_order ⟨[], [], [], 0, 0⟩ ⟨"Eve", "addr", "card", [⟨"p1", "X", -5, 2, none⟩]⟩ none =
        (.error ⟨500, "Internal Server Error"⟩, ⟨[], [], [], 0, 0⟩)) := by
  have h := C10_negative_total_rejected ⟨[], [], [], 0, 0⟩
    ⟨"Eve", "addr", "card", [⟨"p1", "X", -5, 2, none⟩]⟩ none
    ⟨"p1", "X", -5, 2, none⟩ 0 0
  exact ⟨h.1, by norm_num [checkout_total], h.2.2.2 (by norm_num [checkout_total])⟩

/-- C7: listing the catalog with an absent or empty search parameter returns
the full catalog, and a non-empty parameter returns exactly the products
whose title or category contains the search string as a case-insensitive
substring. -/
theorem C7_catalog_search (db : DB) (s : String) (p : ProductDoc) :
    list_products db none = db.products ∧
    list_products db (some "") = db.products ∧
    (s ≠ "" → (p ∈ list_products db (some s) ↔
      p ∈ db.products ∧ (contains_ci p.title s ∨ contains_ci p.category s))) := by
  refine ⟨rfl, rfl, ?_⟩
  intro hs
  simp only [list_products, hs, if_false, List.mem_filter]
  constructor
  · rintro ⟨hp, hm⟩
    refine ⟨hp, ?_⟩
    rcases Bool.or_eq_true_iff.mp hm with h | h
    · exact Or.inl (show List.IsInfix (str_lower s) (str_lower p.title) from
        of_decide_eq_true h)
    · exact Or.inr (show List.IsInfix (str_lower s) (str_lower p.category) from
        of_decide_eq_true h)
  · rintro ⟨hp, hm⟩
    refine ⟨hp, ?_⟩
    rcases hm with h | h
    · have h2 : List.IsInfix (str_lower s) (str_lower p.title) := h
      exact Bool.or_eq_true_iff.mpr (Or.inl (decide_eq_true h2))
    · have h2 : List.IsInfix (str_lower s) (str_lower p.category) := h
      exact Bool.or_eq_true_iff.mpr (Or.inr (decide_eq_true h2))

/-- Witness for C7: searching "neb" finds "Nebula Headphones" despite the
case difference. -/
theorem C7_catalog_search_witness :
    ("neb" : String) ≠ "" ∧
    (⟨5, "Nebula Headphones", none, 129, "audio", none, true⟩ : ProductDoc) ∈
      list_products ⟨[], [⟨5, "Nebula Headphones", none, 129, "audio", none, true⟩], [], 6, 0⟩
        (some "neb") := by
  have h := C7_catalog_search
    ⟨[], [⟨5, "Nebula Headphones", none, 129, "audio", none, true⟩], [], 6, 0⟩
    "neb" ⟨5, "Nebula Headphones", none, 129, "audio", none, true⟩
  refine ⟨by decide, (h.2.2 (by decide)).mpr ⟨by decide, Or.inl ?_⟩⟩
  exact ⟨[], ['u', 'l', 'a', ' ', 'h', 'e', 'a', 'd', 'p', 'h', 'o', 'n', 'e', 's'], by decide⟩

/-- Elements of `update_first p f l` when `p` holds at no more than one
position: untouched elements fail `p` and come from `l`; the touched element
is `f` of an element of `l` satisfying `p`. -/
theorem update_first_cases {α : Type} {p : α → Bool} {f : α → α} {l : List α}
    (hpair : l.Pairwise (fun x y => ¬(p x = true ∧ p y = true))) :
    ∀ q ∈ update_first p f l,
      (p q = false ∧ q ∈ l) ∨ ∃ x ∈ l, p x = true ∧ q = f x := by
  induction l with
  | nil => intro q hq; simp [update_first] at hq
  | cons x xs ih =>
    rcases List.pairwise_cons.mp hpair with ⟨hx, hxs⟩
    intro q hq
    cases hpx : p x with
    | true =>
      simp only [update_first, hpx, if_true] at hq
      rcases List.mem_cons.mp hq with hqf | hq
      · exact Or.inr ⟨x, List.mem_cons_self x xs, hpx, hqf⟩
      · left
        refine ⟨?_, List.mem_cons_of_mem x hq⟩
        cases hpq : p q with
        | false => rfl
        | true => exact absurd ⟨hpx, hpq⟩ (hx q hq)
    | false =>
      simp only [update_first, hpx, Bool.false_eq_true, if_false] at hq
      rcases List.mem_cons.mp hq with hqx | hq
      · left
        rw [hqx]
        exact ⟨hpx, List.mem_cons_self x xs⟩
      · rcases ih hxs q hq with ⟨h1, h2⟩ | ⟨y, hy, hpy, hqy⟩
        · exact Or.inl ⟨h1, List.mem_cons_of_mem x h2⟩
        · exact Or.inr ⟨y, List.mem_cons_of_mem x hy, hpy, hqy⟩

/-- An element failing the filter survives `update_first` unchanged. -/
theorem mem_update_first_of_not {α : Type} (p : α → Bool) (f : α → α) {l : List α}
    {q : α} (hq : q ∈ l) (hpq : p q = false) : q ∈ update_first p f l := by
  induction l with
  | nil => simp at hq
  | cons x xs ih =>
    cases hpx : p x with
    | true =>
      simp only [update_first, hpx, if_true]
      rcases List.mem_cons.mp hq with hqx | hq2
      · rw [hqx] at hpq
        rw [hpq] at hpx
        exact Bool.noConfusion hpx
      · exact List.mem_cons_of_mem _ hq2
    | false =>
      simp only [update_first, hpx, Bool.false_eq_true, if_false]
      rcases List.mem_cons.mp hq with hqx | hq2
      · rw [hqx]
        exact List.mem_cons_self x _
      · exact List.mem_cons_of_mem _ (ih hq2)

/-- The first element satisfying `p` is rewritten by `f` and lands in the
result of `update_first`. -/
theorem update_first_image {α : Type} (p : α → Bool) (f : α → α) {l : List α}
    (h : ∃ x ∈ l, p x = true) :
    ∃ x ∈ l, p x = true ∧ f x ∈ update_first p f l := by
  induction l with
  | nil => simp at h
  | cons x xs ih =>
    cases hpx : p x with
    | true =>
      refine ⟨x, List.mem_cons_self x xs, hpx, ?_⟩
      simp only [update_first, hpx, if_true]
      exact List.mem_cons_self _ _
    | false =>
      have h2 : ∃ y ∈ xs, p y = true := by
        rcases h with ⟨y, hy, hpy⟩
        rcases List.mem_cons.mp hy with hyx | hy2
        · rw [hyx, hpx] at hpy
          exact Bool.noConfusion hpy
        · exact ⟨y, hy2, hpy⟩
      rcases ih h2 with ⟨y, hy, hpy, hmem⟩
      refine ⟨y, List.mem_cons_of_mem x hy, hpy, ?_⟩
      simp only [update_first, hpx, Bool.false_eq_true, if_false]
      exact List.mem_cons_of_mem x hmem

/-- C9: a successful admin product update overwrites all six fields of the
targeted document with exactly the payload's values — optional fields
omitted from the payload (arriving as their null defaults) overwrite the
stored values too — while every other document and collection is untouched. -/
theorem C9_update_overwrites_fields (db : DB) (product_id : String)
    (payload : ProductPayload) (a : Option String) (u : UserDoc) (oid : Nat)
    (hu : user_from_token db (bearer_token a) = some u)
    (hadmin : u.is_admin = true)
    (hoid : parse_object_id product_id = some oid)
    (hmem : ∃ q ∈ db.products, q._id = oid)
    (hids : db.products.Pairwise (fun x y => x._id ≠ y._id)) :
    (update_product db product_id payload a).1 = .ok true ∧
    ((update_product db product_id payload a).2).users = db.users ∧
    ((update_product db product_id payload a).2).orders = db.orders ∧
    (∀ q ∈ ((update_product db product_id payload a).2).products, q._id = oid →
      q.title = payload.title ∧ q.description = payload.description ∧
      q.price = payload.price ∧ q.category = payload.category ∧
      q.image = payload.image ∧ q.in_stock = payload.in_stock) ∧
    (∃ q ∈ ((update_product db product_id payload a).2).products, q._id = oid) ∧
    (∀ q ∈ ((update_product db product_id payload a).2).products, q._id ≠ oid →
      q ∈ db.products) ∧
    (∀ q ∈ db.products, q._id ≠ oid →
      q ∈ ((update_product db product_id payload a).2).products) := by
  have hany : db.products.any (fun q => q._id = oid) = true := by
    rcases hmem with ⟨q, hq, hqid⟩
    exact List.any_eq_true.mpr ⟨q, hq, by simp [hqid]⟩
  have hpair : db.products.Pairwise
      (fun x y => ¬((x._id = oid : Bool) = true ∧ (y._id = oid : Bool) = true)) := by
    refine hids.imp ?_
    intro x y hxy hc
    have h1 : x._id = oid := by simpa using hc.1
    have h2 : y._id = oid := by simpa using hc.2
    exact hxy (h1.trans h2.symm)
  have hres : update_product db product_id payload a =
      (.ok true,
       ⟨db.users,
        update_first (fun q => q._id = oid) (fun q =>
          ⟨q._id, payload.title, payload.description, payload.price,
           payload.category, payload.image, payload.in_stock⟩) db.products,
        db.orders, db.next_id, db.now⟩) := by
    simp [update_product, hu, hadmin, hoid, hany]
  rw [hres]
  refine ⟨rfl, rfl, rfl, ?_, ?_, ?_, ?_⟩
  · intro q hq hqid
    rcases update_first_cases hpair q hq with ⟨hpq, _⟩ | ⟨x, _, _, hqx⟩
    · rw [hqid] at hpq
      simp at hpq
    · rw [hqx]
      exact ⟨rfl, rfl, rfl, rfl, rfl, rfl⟩
  · have himg := update_first_image (fun q : ProductDoc => q._id = oid)
      (fun q => ⟨q._id, payload.title, payload.description, payload.price,
        payload.category, payload.image, payload.in_stock⟩)
      (by rcases hmem with ⟨q, hq, hqid⟩; exact ⟨q, hq, by simp [hqid]⟩)
    rcases himg with ⟨x, _, hpx, hmem2⟩
    exact ⟨_, hmem2, by simpa using hpx⟩
  · intro q hq hqid
    rcases update_first_cases hpair q hq with ⟨_, hql⟩ | ⟨x, _, hpx, hqx⟩
    · exact hql
    · have : x._id = oid := by simpa using hpx
      rw [hqx] at hqid
      exact absurd this hqid
  · intro q hq hqid
    exact mem_update_first_of_not _ _ hq (by simp [hqid])

/-- Witness for C9: an admin updates the only product with a payload whose
optional fields are omitted; afterwards its description and image are null. -/
theorem C9_update_overwrites_fields_witness :
    (update_product
        ⟨[⟨1, "Root", "r@x.com", "h", none, true, some "adm"⟩],
         [⟨0, "Old", some "old desc", 3, "home", some "old.png", false⟩],
         [], 2, 0⟩
        "000000000000000000000000" ⟨"New", none, 7, "office", none, true⟩
        (some "Bearer adm")).1 = .ok true ∧
    (∀ q ∈ ((update_product
        ⟨[⟨1, "Root", "r@x.com", "h", none, true, some "adm"⟩],
         [⟨0, "Old", some "old desc", 3, "home", some "old.png", false⟩],
         [], 2, 0⟩
        "000000000000000000000000" ⟨"New", none, 7, "office", none, true⟩
        (some "Bearer adm")).2).products, q._id = 0 →
      q.title = "New" ∧ q.description = none ∧ q.price = 7 ∧
      q.category = "office" ∧ q.image = none ∧ q.in_stock = true) := by
  have h := C9_update_overwrites_fields
    ⟨[⟨1, "Root", "r@x.com", "h", none, true, some "adm"⟩],
     [⟨0, "Old", some "old desc", 3, "home", some "old.png", false⟩],
     [], 2, 0⟩
    "000000000000000000000000" ⟨"New", none, 7, "office", none, true⟩
    (some "Bearer adm") ⟨1, "Root", "r@x.com", "h", none, true, some "adm"⟩ 0
    (by decide) (by decide) (by decide)
    ⟨⟨0, "Old", some "old desc", 3, "home", some "old.png", false⟩, by decide, by decide⟩
    (by decide)
  exact ⟨h.1, h.2.2.2.1⟩

end MiniShop
